import Mathlib

/-
Verification of the super-chat realtime room-session engine.

The definitions below are a shallow embedding of the client code:

* `applyEvent` embeds the socket event handlers of `ChatBox`
  (src/src/components/ChatBox.tsx, second revision, lines 302-330):
  the `recent-messages`, `receive-message` and `message-reaction`
  handlers acting on the `messages` state.
* The composer state machine embeds `MessageInput`
  (src/src/components/MessageInput.tsx, second revision):
  `validateFile`, `handleFile`, `startMediaUpload`, `cancelUpload`,
  `handleSend`, `handleDrop`.
* `handleTyping` embeds the closure-based outgoing rate limiter of
  `ChatBox` (lines 400-409).

JavaScript `Record<string, number>` objects are embedded as association
lists `List (String × Int)`; the falsy-coalescing read `r?.[k] || 0` is
embedded by `jsGetReaction`, and the object spread `\x7b...r, [k]: v\x7d`
by `setKey` (replace in place, else append, matching JS key order).
-/

namespace SuperChat

/-- Lookup of a key in a JS-object-like association list (first match). -/
def lookupKey {α : Type} : List (String × α) → String → Option α
  | [], _ => none
  | (k', v) :: rest, k => if k' = k then some v else lookupKey rest k

/-- Embedding of the JS object spread update: replace the value of `k` in
place when present, otherwise append the new binding at the end. -/
def setKey {α : Type} : List (String × α) → String → α → List (String × α)
  | [], k, v => [(k, v)]
  | (k', v') :: rest, k, v =>
      if k' = k then (k, v) :: rest else (k', v') :: setKey rest k v

/-- Embedding of the `Message` record of ChatBox.tsx.  Reaction counts are
`Int` because the TypeScript field type is `number`. -/
structure Message where
  id : String
  sender : String
  text : String
  timestamp : String
  reactions : List (String × Int)
  replyTo : Option String
  imageUrl : Option String
  videoUrl : Option String
deriving Repr, DecidableEq

/-- Inbound room-channel events handled by the ChatBox socket listeners
that touch the `messages` state. -/
inductive ChatEvent where
  | recentMessages (msgs : List Message)
  | receiveMessage (msg : Message)
  | messageReaction (messageId : String) (reaction : String)
deriving Repr, DecidableEq

/-- Value of `msg.reactions?.[reaction] || 0` in JS: a missing key reads
as 0, and a stored 0 is falsy so it also coalesces to 0. -/
def jsGetReaction (rs : List (String × Int)) (k : String) : Int :=
  match lookupKey rs k with
  | none => 0
  | some c => if c = 0 then 0 else c

/-- Per-message body of the `message-reaction` handler: on an id match
the named counter is bumped via `\x7b...msg.reactions, [reaction]:
(msg.reactions?.[reaction] || 0) + 1\x7d`, otherwise the message is
returned unchanged. -/
def reactionUpdate (messageId reaction : String) (msg : Message) : Message :=
  if msg.id = messageId then
    { msg with
      reactions :=
        setKey msg.reactions reaction (jsGetReaction msg.reactions reaction + 1) }
  else msg

/-- Embedding of the three `socket.on` handlers of ChatBox.tsx (second
revision, lines 308-330) acting on the `messages` array:
`recent-messages` replaces the log wholesale, `receive-message` appends
the payload with its reactions reset to the empty object, and
`message-reaction` maps `reactionUpdate` over the log (leaving the log
untouched when no id matches). -/
def applyEvent (log : List Message) : ChatEvent → List Message
  | .recentMessages msgs => msgs
  | .receiveMessage msg => log ++ [{ msg with reactions := [] }]
  | .messageReaction messageId reaction => log.map (reactionUpdate messageId reaction)

/-- Processing of a whole inbound event sequence, in arrival order. -/
def replayEvents (log : List Message) (es : List ChatEvent) : List Message :=
  es.foldl applyEvent log

/-- Reaction count observed for a (message id, symbol) pair: the count of
the first message in the log carrying that id, 0 when the message is
absent (the UI renders `msg.reactions?.[r] || 0`). -/
def countOf (log : List Message) (messageId : String) (sym : String) : Int :=
  match log.find? (fun m => m.id = messageId) with
  | none => 0
  | some m => jsGetReaction m.reactions sym

/-- Reaction maps carrying no negative count. -/
def wfReactions (rs : List (String × Int)) : Prop :=
  ∀ p ∈ rs, 0 ≤ p.2

/-- Logs all of whose messages carry well-formed reaction maps. -/
def wfLog (log : List Message) : Prop :=
  ∀ m ∈ log, wfReactions m.reactions

/-- Well-formed inbound event: a snapshot carries a well-formed log (the
spec data model promises non-negative counts on the wire). -/
def wfEvent : ChatEvent → Prop
  | .recentMessages msgs => wfLog msgs
  | .receiveMessage _ => True
  | .messageReaction _ _ => True

/-- Discriminator for the snapshot-replace event. -/
def ChatEvent.isSnapshot : ChatEvent → Bool
  | .recentMessages _ => true
  | _ => false

instance : DecidablePred wfReactions := fun rs =>
  inferInstanceAs (Decidable (∀ p ∈ rs, 0 ≤ p.2))

instance : DecidablePred wfLog := fun log =>
  inferInstanceAs (Decidable (∀ m ∈ log, wfReactions m.reactions))

instance (e : ChatEvent) : Decidable (wfEvent e) := by
  cases e with
  | recentMessages msgs => exact inferInstanceAs (Decidable (wfLog msgs))
  | receiveMessage m => exact inferInstanceAs (Decidable True)
  | messageReaction i r => exact inferInstanceAs (Decidable True)

theorem lookupKey_mem {α : Type} {rs : List (String × α)} {k : String} {v : α}
    (h : lookupKey rs k = some v) : (k, v) ∈ rs := by
  induction rs with
  | nil => simp [lookupKey] at h
  | cons p rest ih =>
    rw [lookupKey] at h
    by_cases hk : p.1 = k
    · rw [if_pos hk] at h
      cases h
      have hp : (k, p.2) = p := by rw [← hk]
      rw [hp]
      exact List.mem_cons_self p rest
    · rw [if_neg hk] at h
      exact List.mem_cons_of_mem _ (ih h)

theorem lookupKey_setKey_self {α : Type} (rs : List (String × α)) (k : String) (v : α) :
    lookupKey (setKey rs k v) k = some v := by
  induction rs with
  | nil => simp [setKey, lookupKey]
  | cons p rest ih =>
    rw [setKey]
    by_cases hk : p.1 = k
    · rw [if_pos hk, lookupKey, if_pos rfl]
    · rw [if_neg hk, lookupKey, if_neg hk, ih]

theorem lookupKey_setKey_ne {α : Type} (rs : List (String × α)) (k : String) (v : α)
    (k' : String) (h : k ≠ k') : lookupKey (setKey rs k v) k' = lookupKey rs k' := by
  induction rs with
  | nil => simp [setKey, lookupKey, h]
  | cons p rest ih =>
    rw [setKey]
    by_cases hk : p.1 = k
    · have hpk : ¬ p.1 = k' := by rw [hk]; exact h
      rw [if_pos hk, lookupKey, if_neg h, lookupKey, if_neg hpk]
    · rw [if_neg hk, lookupKey, lookupKey, ih]

theorem setKey_mem {α : Type} {rs : List (String × α)} {k : String} {v : α}
    {p : String × α} (h : p ∈ setKey rs k v) : p ∈ rs ∨ p = (k, v) := by
  induction rs with
  | nil => simp [setKey] at h; right; exact h
  | cons q rest ih =>
    rw [setKey] at h
    by_cases hk : q.1 = k
    · rw [if_pos hk] at h
      rcases List.mem_cons.mp h with h1 | h1
      · right; exact h1
      · left; exact List.mem_cons_of_mem _ h1
    · rw [if_neg hk] at h
      rcases List.mem_cons.mp h with h1 | h1
      · left; exact h1 ▸ List.mem_cons_self q rest
      · rcases ih h1 with h2 | h2
        · left; exact List.mem_cons_of_mem _ h2
        · right; exact h2

theorem jsGetReaction_nonneg {rs : List (String × Int)} (h : wfReactions rs)
    (k : String) : 0 ≤ jsGetReaction rs k := by
  rw [jsGetReaction]
  cases hlk : lookupKey rs k with
  | none => exact le_refl 0
  | some c =>
    show (0 : Int) ≤ if c = 0 then 0 else c
    by_cases hc : c = 0
    · rw [if_pos hc]
    · rw [if_neg hc]
      exact h (k, c) (lookupKey_mem hlk)

theorem find?_append_of_some {p : Message → Bool} {log : List Message} {x : Message}
    (h : log.find? p = some x) (l' : List Message) : (log ++ l').find? p = some x := by
  induction log with
  | nil => simp [List.find?] at h
  | cons m rest ih =>
    rw [List.cons_append]
    cases hm : p m with
    | true => rw [List.find?_cons_of_pos _ hm]; rwa [List.find?_cons_of_pos _ hm] at h
    | false =>
      rw [List.find?_cons_of_neg _ (by simp [hm])]
      rw [List.find?_cons_of_neg _ (by simp [hm])] at h
      exact ih h

theorem find?_append_of_none {p : Message → Bool} {log : List Message}
    (h : log.find? p = none) (l' : List Message) : (log ++ l').find? p = l'.find? p := by
  induction log with
  | nil => rfl
  | cons m rest ih =>
    rw [List.cons_append]
    cases hm : p m with
    | true => rw [List.find?_cons_of_pos _ hm] at h; cases h
    | false =>
      rw [List.find?_cons_of_neg _ (by simp [hm])]
      rw [List.find?_cons_of_neg _ (by simp [hm])] at h
      exact ih h

/-- Updating a message's reactions never changes its id. -/
theorem reactionUpdate_id (messageId reaction : String) (msg : Message) :
    (reactionUpdate messageId reaction msg).id = msg.id := by
  rw [reactionUpdate]
  by_cases h : msg.id = messageId
  · rw [if_pos h]
  · rw [if_neg h]

/-- Lookup by id commutes with the `message-reaction` update map, because
the update preserves ids. -/
theorem find?_map_reactionUpdate (log : List Message) (messageId reaction mid : String) :
    (log.map (reactionUpdate messageId reaction)).find? (fun m => m.id = mid) =
      (log.find? (fun m => m.id = mid)).map (reactionUpdate messageId reaction) := by
  induction log with
  | nil => rfl
  | cons m rest ih =>
    rw [List.map_cons]
    by_cases hm : m.id = mid
    · rw [List.find?_cons_of_pos _ (by simp [reactionUpdate_id, hm]),
        List.find?_cons_of_pos _ (by simp [hm])]
      rfl
    · rw [List.find?_cons_of_neg _ (by simp [reactionUpdate_id, hm]),
        List.find?_cons_of_neg _ (by simp [hm]), ih]

theorem countOf_eq_of_find?_some {log : List Message} {mid : String} {x : Message}
    (h : log.find? (fun m => m.id = mid) = some x) (sym : String) :
    countOf log mid sym = jsGetReaction x.reactions sym := by
  rw [countOf, h]

theorem countOf_eq_of_find?_none {log : List Message} {mid : String}
    (h : log.find? (fun m => m.id = mid) = none) (sym : String) :
    countOf log mid sym = 0 := by
  rw [countOf, h]

/-- One `reactionUpdate` never lowers any observed reaction count. -/
theorem jsGetReaction_reactionUpdate_ge (msg : Message) (mid r sym : String) :
    jsGetReaction msg.reactions sym ≤
      jsGetReaction (reactionUpdate mid r msg).reactions sym := by
  rw [reactionUpdate]
  by_cases h : msg.id = mid
  · rw [if_pos h]
    show jsGetReaction msg.reactions sym ≤
      jsGetReaction (setKey msg.reactions r (jsGetReaction msg.reactions r + 1)) sym
    by_cases hs : r = sym
    · subst hs
      generalize msg.reactions = rs
      generalize hv : jsGetReaction rs r = v
      rw [jsGetReaction, lookupKey_setKey_self]
      show v ≤ if v + 1 = 0 then 0 else v + 1
      by_cases h1 : v + 1 = 0
      · rw [if_pos h1]; omega
      · rw [if_neg h1]; omega
    · rw [jsGetReaction, jsGetReaction, lookupKey_setKey_ne _ _ _ _ hs]
  · rw [if_neg h]

/-- C2: a `message-reaction` event whose messageId matches no message in
the log leaves the log completely unchanged (the orphaned update is
silently dropped; the handler is a total function, so nothing throws). -/
theorem orphan_reaction_leaves_log_unchanged (log : List Message)
    (messageId reaction : String) (h : ∀ m ∈ log, m.id ≠ messageId) :
    applyEvent log (ChatEvent.messageReaction messageId reaction) = log := by
  induction log with
  | nil => rfl
  | cons m rest ih =>
    have hm : ¬ m.id = messageId := h m (List.mem_cons_self m rest)
    have hrest : applyEvent rest (ChatEvent.messageReaction messageId reaction) = rest :=
      ih fun x hx => h x (List.mem_cons_of_mem m hx)
    rw [applyEvent] at hrest ⊢
    rw [List.map_cons, hrest, reactionUpdate, if_neg hm]

/-- Witness for C2 at a concrete log and an absent message id. -/
theorem orphan_reaction_leaves_log_unchanged_witness :
    applyEvent [⟨"1", "alice", "hi", "t1", [], none, none, none⟩]
        (ChatEvent.messageReaction "2" "like") =
      [⟨"1", "alice", "hi", "t1", [], none, none, none⟩] :=
  orphan_reaction_leaves_log_unchanged _ _ _ (by decide)

/-- C1 (as stated) fails: the `receive-message` handler resets the
payload's reactions to the empty object, so after a `recent-messages`
replay of two messages, receiving a third message that carries a
non-empty reaction map yields a log that is not literally
`[m1, m2, m3]`: its third entry has lost the payload's counts. -/
theorem replay_append_literal_equality_fails :
    replayEvents []
        [ChatEvent.recentMessages
          [⟨"1", "alice", "hi", "t1", [], none, none, none⟩,
           ⟨"2", "bob", "yo", "t2", [], none, none, none⟩],
         ChatEvent.receiveMessage
           ⟨"3", "carol", "hey", "t3", [("like", 1)], none, none, none⟩] ≠
      [⟨"1", "alice", "hi", "t1", [], none, none, none⟩,
       ⟨"2", "bob", "yo", "t2", [], none, none, none⟩,
       ⟨"3", "carol", "hey", "t3", [("like", 1)], none, none, none⟩] := by
  decide

/-- C1 (amended): a `recent-messages` snapshot replaces the whole log with
exactly the replayed array, for every prior log state, and a subsequent
`receive-message` appends its payload at the end with the reactions map
reset to empty (so the log is literally `[m1, m2, m3]` exactly when `m3`
carries no reactions); a second replay of `[m1]` yields exactly `[m1]`
(full replace, never a merge). -/
theorem replay_full_replace_then_append (prev : List Message) (m1 m2 m3 : Message) :
    replayEvents prev
        [ChatEvent.recentMessages [m1, m2], ChatEvent.receiveMessage m3] =
      [m1, m2, { m3 with reactions := [] }] ∧
    replayEvents prev
        [ChatEvent.recentMessages [m1, m2], ChatEvent.receiveMessage m3,
         ChatEvent.recentMessages [m1]] = [m1] :=
  ⟨rfl, rfl⟩

/-- C3 (as stated) fails: reaction counts are not monotonically
non-decreasing across every event sequence of a session, because a
`recent-messages` snapshot replace installs the snapshot's counts
verbatim, and those may be lower than the counts currently held.
Concretely, after a reaction has raised the count of message "1" /
symbol "like" to 1, a snapshot replay carrying that message with no
reactions drops the count back to 0. -/
theorem reaction_count_decreases_after_snapshot :
    countOf
        (applyEvent
          (replayEvents []
            [ChatEvent.receiveMessage ⟨"1", "alice", "hi", "t1", [], none, none, none⟩,
             ChatEvent.messageReaction "1" "like"])
          (ChatEvent.recentMessages [⟨"1", "alice", "hi", "t1", [], none, none, none⟩]))
        "1" "like" <
      countOf
        (replayEvents []
          [ChatEvent.receiveMessage ⟨"1", "alice", "hi", "t1", [], none, none, none⟩,
           ChatEvent.messageReaction "1" "like"])
        "1" "like" := by
  decide

/-- C3 (amended): reaction counts stay non-negative under every event
(given snapshot payloads with non-negative counts, as the data model
promises for the wire format), and under the non-snapshot events
(`receive-message`, `message-reaction`) the count of every
(message id, symbol) pair is monotonically non-decreasing; a
`recent-messages` snapshot replace, however, resets counts to the
snapshot's values, which may be lower. -/
theorem reaction_counts_nonneg_and_monotone_without_snapshot
    (log : List Message) (e : ChatEvent) (messageId sym : String)
    (hwf : wfLog log) (hev : wfEvent e) :
    wfLog (applyEvent log e) ∧
      (e.isSnapshot = false →
        countOf log messageId sym ≤ countOf (applyEvent log e) messageId sym) := by
  constructor
  · cases e with
    | recentMessages msgs => exact hev
    | receiveMessage m =>
      intro x hx
      rw [applyEvent] at hx
      rcases List.mem_append.mp hx with h1 | h1
      · exact hwf x h1
      · rcases List.mem_singleton.mp h1 with rfl
        intro p hp
        simp at hp
    | messageReaction mid r =>
      intro x hx
      rw [applyEvent] at hx
      rcases List.mem_map.mp hx with ⟨y, hy, rfl⟩
      rw [reactionUpdate]
      by_cases h : y.id = mid
      · rw [if_pos h]
        intro p hp
        rcases setKey_mem hp with h1 | h1
        · exact hwf y hy p h1
        · rcases h1 with rfl
          have := jsGetReaction_nonneg (hwf y hy) r
          simpa using le_trans this (by omega)
      · rw [if_neg h]
        exact hwf y hy
  · intro hsnap
    cases e with
    | recentMessages msgs => simp [ChatEvent.isSnapshot] at hsnap
    | receiveMessage m =>
      rw [applyEvent]
      cases hfind : log.find? (fun x => x.id = messageId) with
      | some x =>
        rw [countOf_eq_of_find?_some hfind,
          countOf_eq_of_find?_some (find?_append_of_some hfind _)]
      | none =>
        rw [countOf_eq_of_find?_none hfind]
        have hstep := find?_append_of_none hfind [{ m with reactions := [] }]
        by_cases hm : m.id = messageId
        · have hpos : List.find? (fun x => x.id = messageId)
              [{ m with reactions := [] }] = some { m with reactions := [] } :=
            List.find?_cons_of_pos _ (by simpa using hm)
          rw [countOf_eq_of_find?_some (hstep.trans hpos)]
          exact le_refl 0
        · have hneg : List.find? (fun x => x.id = messageId)
              [{ m with reactions := [] }] = none := by
            rw [List.find?_cons_of_neg _ (by simpa using hm)]
            rfl
          rw [countOf_eq_of_find?_none (hstep.trans hneg)]
    | messageReaction mid r =>
      rw [applyEvent]
      cases hfind : log.find? (fun x => x.id = messageId) with
      | none =>
        have h2 : (log.map (reactionUpdate mid r)).find?
            (fun x => x.id = messageId) = none := by
          rw [find?_map_reactionUpdate, hfind]
          rfl
        rw [countOf_eq_of_find?_none hfind, countOf_eq_of_find?_none h2]
      | some y =>
        have h2 : (log.map (reactionUpdate mid r)).find?
            (fun x => x.id = messageId) = some (reactionUpdate mid r y) := by
          rw [find?_map_reactionUpdate, hfind]
          rfl
        rw [countOf_eq_of_find?_some hfind, countOf_eq_of_find?_some h2]
        exact jsGetReaction_reactionUpdate_ge y mid r sym

/-- Witness for C3 (amended) at a concrete log and event. -/
theorem reaction_counts_nonneg_and_monotone_without_snapshot_witness :
    wfLog (applyEvent [⟨"1", "alice", "hi", "t1", [("like", 2)], none, none, none⟩]
        (ChatEvent.messageReaction "1" "like")) ∧
      (ChatEvent.isSnapshot (ChatEvent.messageReaction "1" "like") = false →
        countOf [⟨"1", "alice", "hi", "t1", [("like", 2)], none, none, none⟩]
            "1" "like" ≤
          countOf
            (applyEvent [⟨"1", "alice", "hi", "t1", [("like", 2)], none, none, none⟩]
              (ChatEvent.messageReaction "1" "like")) "1" "like") :=
  reaction_counts_nonneg_and_monotone_without_snapshot _ _ "1" "like"
    (by decide) (by decide)

/-- C10: every `receive-message` appends its payload with the reactions
mapping replaced by the empty mapping, discarding any counts carried in
the event, while a `recent-messages` replay installs the payload
messages verbatim, reaction counts included. -/
theorem receive_clears_reactions_snapshot_preserves :
    (∀ (log : List Message) (m : Message),
        applyEvent log (ChatEvent.receiveMessage m) =
          log ++ [{ m with reactions := [] }]) ∧
    (∀ (log msgs : List Message),
        applyEvent log (ChatEvent.recentMessages msgs) = msgs) :=
  ⟨fun _ _ => rfl, fun _ _ => rfl⟩

/-- Attachment kinds distinguished by the composer
(`file.type.startsWith("video/") ? "video" : "image"`). -/
inductive Kind where
  | image
  | video
deriving Repr, DecidableEq

/-- Embedding of the browser File values the composer receives: a MIME
type string and a byte size. -/
structure File where
  type : String
  size : Nat
deriving Repr, DecidableEq

def MAX_FILE_SIZE_MB : Nat := 20

def MAX_VIDEO_SIZE_MB : Nat := 50

def VALID_MIME_TYPES : List String :=
  ["image/jpeg", "image/png", "image/gif", "image/webp"]

def VALID_VIDEO_MIME_TYPES : List String :=
  ["video/mp4", "video/webm", "video/ogg", "video/quicktime"]

/-- Embedding of the JS `String.prototype.trim`: strip whitespace from
both ends (stated over the character list so that it evaluates). -/
def jsTrim (s : String) : String :=
  String.mk (((s.data.dropWhile Char.isWhitespace).reverse.dropWhile
    Char.isWhitespace).reverse)

/-- Embedding of the JS `String.prototype.startsWith` (stated over the
character list so that it evaluates). -/
def jsStartsWith (s pre : String) : Bool := pre.data.isPrefixOf s.data

/-- Embedding of `validateFile` (MessageInput.tsx lines 384-406): the
MIME type is checked against the kind-specific allow-list and the size
against the kind-specific ceiling; a failure produces the descriptive
message passed to `setError`. -/
def validateFile (file : File) (kind : Kind) : Except String Unit :=
  match kind with
  | .image =>
    if file.type ∉ VALID_MIME_TYPES then
      Except.error "Unsupported file type. Please upload an image (JPEG, PNG, GIF, WEBP)."
    else if file.size > MAX_FILE_SIZE_MB * 1024 * 1024 then
      Except.error "File size exceeds limit (max 20MB)"
    else Except.ok ()
  | .video =>
    if file.type ∉ VALID_VIDEO_MIME_TYPES then
      Except.error "Unsupported file type. Please upload a video (MP4, WebM, OGG, MOV)."
    else if file.size > MAX_VIDEO_SIZE_MB * 1024 * 1024 then
      Except.error "File size exceeds limit (max 50MB)"
    else Except.ok ()

/-- State of the MessageInput composer.  The React state hooks and refs
are embedded as fields; `nextId` is a fresh-name supply standing for
`URL.createObjectURL` and `new XMLHttpRequest()`, and `inFlight`,
`aborted`, `created`, `revoked` and `sent` are effect logs recording,
respectively, the transfers started and not yet aborted, the aborted
transfers, the object URLs created, the object URLs revoked, and the
`onSend` emissions (trimmed text, imageUrl, videoUrl). -/
structure ComposerState where
  message : String
  imageUrl : Option String
  videoUrl : Option String
  previewUrl : Option Nat
  previewKind : Option Kind
  uploading : Bool
  uploadProgress : Nat
  error : Option String
  isDragging : Bool
  xhrRef : Option Nat
  previewUrlRef : Option Nat
  nextId : Nat
  inFlight : List Nat
  aborted : List Nat
  created : List Nat
  revoked : List Nat
  sent : List (String × Option String × Option String)
deriving Repr, DecidableEq

def composerInit : ComposerState :=
  { message := "", imageUrl := none, videoUrl := none, previewUrl := none,
    previewKind := none, uploading := false, uploadProgress := 0, error := none,
    isDragging := false, xhrRef := none, previewUrlRef := none, nextId := 0,
    inFlight := [], aborted := [], created := [], revoked := [], sent := [] }

/-- JS truthiness of a nullable string: null/undefined and "" are falsy. -/
def jsTruthyStr : Option String → Bool
  | none => false
  | some s => s != ""

/-- Embedding of `x || undefined` on a nullable string. -/
def jsOrUndef (o : Option String) : Option String :=
  match o with
  | none => none
  | some s => if s = "" then none else some s

/-- Embedding of `startMediaUpload` (MessageInput.tsx lines 429-501) up
to its synchronous effects: status flips to uploading, progress resets,
and a fresh transfer is started and tracked in `xhrRef` (the Cloudinary
configuration is taken as present; the asynchronous load/error/abort
callbacks are outside the synchronous step modelled here).  Note that
the previous value of `xhrRef` is overwritten without an abort. -/
def startMediaUpload (s : ComposerState) (file : File) (kind : Kind) (preview : Nat) :
    ComposerState :=
  let s := { s with uploading := true, uploadProgress := 0, error := none }
  let xid := s.nextId
  { s with nextId := s.nextId + 1, xhrRef := some xid, inFlight := s.inFlight ++ [xid] }

/-- Embedding of `handleFile` (MessageInput.tsx lines 408-427): clear the
error, classify the kind, validate (recording the descriptive reason on
failure and stopping), clear completed attachment URLs, revoke a
previously held preview URL, create a fresh preview and start the
upload. -/
def handleFile (s : ComposerState) (file : Option File) : ComposerState :=
  match file with
  | none => s
  | some f =>
    let s := { s with error := none }
    let kind : Kind := if jsStartsWith f.type "video/" then Kind.video else Kind.image
    match validateFile f kind with
    | .error e => { s with error := some e }
    | .ok _ =>
      let s := { s with imageUrl := none, videoUrl := none }
      let s :=
        match s.previewUrlRef with
        | some p => { s with revoked := s.revoked ++ [p], previewUrlRef := none }
        | none => s
      let preview := s.nextId
      let s := { s with nextId := s.nextId + 1, created := s.created ++ [preview],
                        previewUrlRef := some preview, previewUrl := some preview,
                        previewKind := some kind }
      startMediaUpload s f kind preview

/-- Embedding of `handleDrop` (MessageInput.tsx lines 579-585): the drag
flag is cleared and the first dropped file is handed to `handleFile`
(with no guard on `uploading`, unlike the file-input element which is
disabled while uploading). -/
def handleDrop (s : ComposerState) (files : List File) : ComposerState :=
  let s := { s with isDragging := false }
  match files with
  | [] => s
  | f :: _ => handleFile s (some f)

/-- Embedding of `cancelUpload` (MessageInput.tsx lines 518-537): abort
the tracked transfer if any, revoke the tracked preview URL if any, and
clear preview, attachment URLs, kind, uploading flag and error. -/
def cancelUpload (s : ComposerState) : ComposerState :=
  let s :=
    match s.xhrRef with
    | some x =>
        { s with aborted := s.aborted ++ [x],
                 inFlight := s.inFlight.filter (fun i => i ≠ x),
                 xhrRef := none }
    | none => s
  let s :=
    match s.previewUrlRef with
    | some p => { s with revoked := s.revoked ++ [p], previewUrlRef := none }
    | none => s
  { s with previewUrl := none, imageUrl := none, videoUrl := none,
           previewKind := none, uploading := false, error := none }

/-- Embedding of `handleSend` (MessageInput.tsx lines 539-559): when the
trimmed text is truthy or an attachment URL is truthy, `onSend` is
invoked (recorded in `sent`) and the composer is reset; otherwise
nothing happens. -/
def handleSend (s : ComposerState) : ComposerState :=
  if jsTrim s.message != "" || jsTruthyStr s.imageUrl || jsTruthyStr s.videoUrl then
    { s with
      sent := s.sent ++ [(jsTrim s.message, jsOrUndef s.imageUrl, jsOrUndef s.videoUrl)],
      message := "", imageUrl := none, videoUrl := none, error := none,
      revoked := s.revoked ++ (match s.previewUrlRef with | some p => [p] | none => []),
      previewUrlRef := none, previewUrl := none, previewKind := none }
  else s

/-- Idle composer: nothing tracked, nothing held, not uploading. -/
def composerIdle (s : ComposerState) : Prop :=
  s.xhrRef = none ∧ s.previewUrlRef = none ∧ s.previewUrl = none ∧
    s.imageUrl = none ∧ s.videoUrl = none ∧ s.previewKind = none ∧
    s.uploading = false ∧ s.error = none

/-- C4: a send with empty trimmed text and no attachment is rejected
synchronously: no `onSend` emission reaches the socket layer and the
composer state is completely unchanged; conversely, whenever `handleSend`
does emit, the trimmed text was non-empty or an attachment URL was
present. -/
theorem empty_send_rejected_before_emission (s : ComposerState) :
    (jsTrim s.message = "" → s.imageUrl = none → s.videoUrl = none → handleSend s = s) ∧
      ((handleSend s).sent ≠ s.sent →
        jsTrim s.message ≠ "" ∨ s.imageUrl ≠ none ∨ s.videoUrl ≠ none) := by
  by_cases hc :
      (jsTrim s.message != "" || jsTruthyStr s.imageUrl || jsTruthyStr s.videoUrl) = true
  · constructor
    · intro h1 h2 h3
      rw [h1, h2, h3] at hc
      simp [jsTruthyStr] at hc
    · intro _
      have hc' : ¬ jsTrim s.message = "" ∨
          jsTruthyStr s.imageUrl = true ∨ jsTruthyStr s.videoUrl = true := by
        simpa [or_assoc] using hc
      rcases hc' with h | h | h
      · exact Or.inl h
      · refine Or.inr (Or.inl ?_)
        intro hnone
        rw [hnone] at h
        simp [jsTruthyStr] at h
      · refine Or.inr (Or.inr ?_)
        intro hnone
        rw [hnone] at h
        simp [jsTruthyStr] at h
  · have hs : handleSend s = s := by rw [handleSend, if_neg hc]
    constructor
    · intro _ _ _
      exact hs
    · intro hne
      exact absurd (by rw [hs]) hne

/-- Witness for C4: the pristine composer rejects a send. -/
theorem empty_send_rejected_before_emission_witness :
    handleSend composerInit = composerInit :=
  (empty_send_rejected_before_emission composerInit).1 (by decide) rfl rfl

/-- Validation of an image succeeds exactly on allow-listed MIME types
within the 20MB ceiling. -/
theorem validate_image_ok_iff (f : File) :
    validateFile f Kind.image = Except.ok () ↔
      f.type ∈ VALID_MIME_TYPES ∧ f.size ≤ MAX_FILE_SIZE_MB * 1024 * 1024 := by
  constructor
  · intro h
    rw [validateFile] at h
    by_cases h1 : f.type ∈ VALID_MIME_TYPES
    · rw [if_neg (not_not_intro h1)] at h
      by_cases h2 : f.size > MAX_FILE_SIZE_MB * 1024 * 1024
      · rw [if_pos h2] at h
        cases h
      · exact ⟨h1, by omega⟩
    · rw [if_pos h1] at h
      cases h
  · intro h
    rw [validateFile, if_neg (not_not_intro h.1), if_neg (by omega)]

/-- Validation of a video succeeds exactly on allow-listed video MIME
types within the 50MB ceiling. -/
theorem validate_video_ok_iff (f : File) :
    validateFile f Kind.video = Except.ok () ↔
      f.type ∈ VALID_VIDEO_MIME_TYPES ∧ f.size ≤ MAX_VIDEO_SIZE_MB * 1024 * 1024 := by
  constructor
  · intro h
    rw [validateFile] at h
    by_cases h1 : f.type ∈ VALID_VIDEO_MIME_TYPES
    · rw [if_neg (not_not_intro h1)] at h
      by_cases h2 : f.size > MAX_VIDEO_SIZE_MB * 1024 * 1024
      · rw [if_pos h2] at h
        cases h
      · exact ⟨h1, by omega⟩
    · rw [if_pos h1] at h
      cases h
  · intro h
    rw [validateFile, if_neg (not_not_intro h.1), if_neg (by omega)]

/-- C5: every selected file is validated against a kind-specific MIME
allow-list and a kind-specific size ceiling (the video ceiling strictly
larger than the image one); on a validation failure the job lands in the
failed status (the descriptive reason stored in `error`) and nothing
else happens: no preview resource is created, no transfer is started. -/
theorem invalid_file_fails_without_upload (s : ComposerState) (f : File) (e : String)
    (h : validateFile f (if jsStartsWith f.type "video/" then Kind.video else Kind.image) =
        Except.error e) :
    handleFile s (some f) = { s with error := some e } ∧
      (validateFile f Kind.image = Except.ok () ↔
        f.type ∈ VALID_MIME_TYPES ∧ f.size ≤ MAX_FILE_SIZE_MB * 1024 * 1024) ∧
      (validateFile f Kind.video = Except.ok () ↔
        f.type ∈ VALID_VIDEO_MIME_TYPES ∧ f.size ≤ MAX_VIDEO_SIZE_MB * 1024 * 1024) ∧
      MAX_FILE_SIZE_MB * 1024 * 1024 < MAX_VIDEO_SIZE_MB * 1024 * 1024 := by
  refine ⟨?_, validate_image_ok_iff f, validate_video_ok_iff f, by decide⟩
  simp only [handleFile, h]

/-- Witness for C5: a 25MB image against the 20MB ceiling fails
immediately with the descriptive size reason and no further effect. -/
theorem invalid_file_fails_without_upload_witness :
    handleFile composerInit (some ⟨"image/png", 26214400⟩) =
      { composerInit with error := some "File size exceeds limit (max 20MB)" } :=
  (invalid_file_fails_without_upload composerInit ⟨"image/png", 26214400⟩
      "File size exceeds limit (max 20MB)" rfl).1

/-- C6: cancel is safe from every status: it aborts the tracked in-flight
transfer if one exists, releases the held preview resource exactly once
(the revocation log grows by precisely the held handle, and a second
cancel revokes nothing), resets the uploading flag, is idempotent, and
is a no-op on an idle composer. -/
theorem cancel_idempotent_single_release (s : ComposerState) :
    cancelUpload (cancelUpload s) = cancelUpload s ∧
      (cancelUpload s).revoked =
        s.revoked ++ (match s.previewUrlRef with | some p => [p] | none => []) ∧
      (∀ x, s.xhrRef = some x →
        x ∈ (cancelUpload s).aborted ∧ x ∉ (cancelUpload s).inFlight ∧
          (cancelUpload s).uploading = false) ∧
      (composerIdle s → cancelUpload s = s) := by
  obtain ⟨msg, iu, vu, pu, pk, upl, prog, err, drag, xhr, pref, nid, infl, abt, crtd, rvk, snt⟩ := s
  cases xhr with
  | none =>
    cases pref with
    | none =>
      refine ⟨rfl, by simp [cancelUpload], ?_, ?_⟩
      · intro x hx
        exact Option.noConfusion hx
      · intro h
        obtain ⟨-, -, h3, h4, h5, h6, h7, h8⟩ := h
        simp only at h3 h4 h5 h6 h7 h8
        subst h3; subst h4; subst h5; subst h6; subst h7; subst h8
        rfl
    | some p =>
      refine ⟨rfl, by simp [cancelUpload], ?_, ?_⟩
      · intro x hx
        exact Option.noConfusion hx
      · intro h
        exact Option.noConfusion h.2.1
  | some x0 =>
    cases pref with
    | none =>
      refine ⟨rfl, by simp [cancelUpload], ?_, ?_⟩
      · intro x hx
        cases hx
        refine ⟨by simp [cancelUpload], ?_, rfl⟩
        simp [cancelUpload]
      · intro h
        exact Option.noConfusion h.1
    | some p =>
      refine ⟨rfl, by simp [cancelUpload], ?_, ?_⟩
      · intro x hx
        cases hx
        refine ⟨by simp [cancelUpload], ?_, rfl⟩
        simp [cancelUpload]
      · intro h
        exact Option.noConfusion h.1

/-- Witness for C6: cancelling a composer mid-upload aborts the tracked
transfer, clears it from the in-flight set and stops uploading. -/
theorem cancel_idempotent_single_release_witness :
    7 ∈ (cancelUpload
        ⟨"", none, none, some 5, some Kind.image, true, 40, none, false,
          some 7, some 5, 8, [7], [], [5], [], []⟩).aborted ∧
      7 ∉ (cancelUpload
        ⟨"", none, none, some 5, some Kind.image, true, 40, none, false,
          some 7, some 5, 8, [7], [], [5], [], []⟩).inFlight ∧
      (cancelUpload
        ⟨"", none, none, some 5, some Kind.image, true, 40, none, false,
          some 7, some 5, 8, [7], [], [5], [], []⟩).uploading = false :=
  (cancel_idempotent_single_release _).2.2.1 7 rfl

/-- C7 (as stated) fails: dropping a second valid file while an upload is
in flight reaches `handleFile`, which revokes the old preview but never
aborts the old transfer: starting from the pristine composer, selecting
one image starts transfer 1, and a subsequent drop of a second image
starts transfer 3 while transfer 1 is still in flight and never aborted,
so two uploads are simultaneously in flight. -/
theorem second_selection_leaves_first_transfer_in_flight :
    (handleDrop (handleFile composerInit (some ⟨"image/png", 1000⟩))
        [⟨"image/jpeg", 2000⟩]).inFlight = [1, 3] ∧
      1 ∉ (handleDrop (handleFile composerInit (some ⟨"image/png", 1000⟩))
        [⟨"image/jpeg", 2000⟩]).aborted := by
  decide

/-- C7 (amended): when a new valid file selection arrives, the previously
held preview handle is released before the new preview resource is
created (so at most one preview handle is held), and the completed
attachment URLs are cleared; the previous in-flight transfer, however,
is not aborted: `handleFile` overwrites the transfer reference without
calling abort, so the old transfer stays in flight alongside the new
one (reachable while uploading via drag-and-drop, which bypasses the
disabled file input). -/
theorem new_selection_releases_preview_but_not_transfer (s : ComposerState) (f : File)
    (hv : validateFile f (if jsStartsWith f.type "video/" then Kind.video else Kind.image) =
        Except.ok ()) :
    (∀ p, s.previewUrlRef = some p → p ∈ (handleFile s (some f)).revoked) ∧
      (handleFile s (some f)).previewUrlRef = some s.nextId ∧
      (∀ x, x ∈ s.inFlight → x ∈ (handleFile s (some f)).inFlight) ∧
      (handleFile s (some f)).aborted = s.aborted := by
  obtain ⟨msg, iu, vu, pu, pk, upl, prog, err, drag, xhr, pref, nid, infl, abt, crtd, rvk, snt⟩ := s
  cases pref with
  | none =>
    refine ⟨?_, ?_, ?_, ?_⟩
    · intro p hp
      exact Option.noConfusion hp
    · simp [handleFile, hv, startMediaUpload]
    · intro x hx
      simp only [handleFile, hv, startMediaUpload, List.mem_append]
      exact Or.inl hx
    · simp [handleFile, hv, startMediaUpload]
  | some p0 =>
    refine ⟨?_, ?_, ?_, ?_⟩
    · intro p hp
      cases hp
      simp [handleFile, hv, startMediaUpload]
    · simp [handleFile, hv, startMediaUpload]
    · intro x hx
      simp only [handleFile, hv, startMediaUpload, List.mem_append]
      exact Or.inl hx
    · simp [handleFile, hv, startMediaUpload]

/-- Witness for C7 (amended) at the concrete mid-upload composer. -/
theorem new_selection_releases_preview_but_not_transfer_witness :
    1 ∈ (handleFile (handleFile composerInit (some ⟨"image/png", 1000⟩))
          (some ⟨"image/jpeg", 2000⟩)).inFlight :=
  (new_selection_releases_preview_but_not_transfer
      (handleFile composerInit (some ⟨"image/png", 1000⟩)) ⟨"image/jpeg", 2000⟩
      rfl).2.2.1 1 (by decide)

/-- State of the outgoing typing rate limiter: the closure variable
`lastEmit` of `handleTyping` (ChatBox.tsx lines 400-409), plus an effect
log of the timestamps at which an outbound `typing` signal was emitted. -/
structure TypingState where
  lastEmit : Nat
  emitted : List Nat
deriving Repr, DecidableEq

/-- Initial limiter state (`let lastEmit = 0`). -/
def typingInit : TypingState := { lastEmit := 0, emitted := [] }

/-- Embedding of one `handleTyping()` call at clock value `now`
(ChatBox.tsx lines 400-409): emit and update `lastEmit` exactly when
`now - lastEmit > 1000`; the socket reference is taken as present (it is
assigned synchronously on mount). -/
def handleTyping (s : TypingState) (now : Nat) : TypingState :=
  if now - s.lastEmit > 1000 then { lastEmit := now, emitted := s.emitted ++ [now] }
  else s

/-- A whole sequence of `handleTyping()` calls at the given clock values. -/
def runTyping (s : TypingState) (ts : List Nat) : TypingState :=
  ts.foldl handleTyping s

/-- Invariant carried through a call sequence: when the pending call
times do not precede the limiter's `lastEmit`, emission timestamps keep
gaps above the 1000ms window, stay below `lastEmit`, and the last
emission (if any) is `lastEmit` itself. -/
theorem runTyping_gap_invariant :
    ∀ (ts : List Nat) (s : TypingState), List.Pairwise (fun a b => a ≤ b) ts →
      (∀ t ∈ ts, s.lastEmit ≤ t) →
      List.Chain' (fun a b => a + 1000 < b) s.emitted →
      (∀ e ∈ s.emitted, e ≤ s.lastEmit) →
      (s.emitted = [] ∨ s.emitted.getLast? = some s.lastEmit) →
      List.Chain' (fun a b => a + 1000 < b) (runTyping s ts).emitted := by
  intro ts
  induction ts with
  | nil => intro s _ _ h3 _ _; exact h3
  | cons t rest ih =>
    intro s hpw hge h3 h4 h5
    rcases List.pairwise_cons.mp hpw with ⟨hhead, hrest⟩
    rw [runTyping, List.foldl_cons]
    have hlast : s.lastEmit ≤ t := hge t (List.mem_cons_self t rest)
    by_cases hc : t - s.lastEmit > 1000
    · have hemit : handleTyping s t = { lastEmit := t, emitted := s.emitted ++ [t] } := by
        rw [handleTyping, if_pos hc]
      rw [hemit]
      refine ih _ hrest ?_ ?_ ?_ ?_
      · intro t' ht'
        exact hhead t' ht'
      · rw [List.chain'_append]
        refine ⟨h3, List.chain'_singleton t, ?_⟩
        intro x hx y hy
        rcases h5 with h5 | h5
        · rw [h5] at hx
          simp at hx
        · rw [h5] at hx
          rcases Option.mem_some_iff.mp hx with rfl
          have hy' : t = y := by simpa using hy
          omega
      · intro e he
        rcases List.mem_append.mp he with he | he
        · exact le_trans (h4 e he) hlast
        · rcases List.mem_singleton.mp he with rfl
          exact le_refl _
      · right
        rw [List.getLast?_concat]
    · have hskip : handleTyping s t = s := by
        rw [handleTyping, if_neg hc]
      rw [hskip]
      refine ih _ hrest ?_ h3 h4 h5
      intro t' ht'
      exact le_trans hlast (hhead t' ht')

/-- C8: across every time-ordered sequence of `notifyTyping()` calls the
emitted typing signals are more than the 1000ms window apart (so at most
one outbound signal per window regardless of how many calls fall inside
it), and the first call in a quiet period — one strictly more than the
window past the last emission — emits immediately. -/
theorem typing_rate_limited_and_first_call_immediate (ts : List Nat)
    (hsorted : List.Pairwise (fun a b => a ≤ b) ts) :
    List.Chain' (fun a b => a + 1000 < b) (runTyping typingInit ts).emitted ∧
      (∀ (s : TypingState) (now : Nat), now - s.lastEmit > 1000 →
        (handleTyping s now).emitted = s.emitted ++ [now]) := by
  constructor
  · refine runTyping_gap_invariant ts typingInit hsorted ?_ List.chain'_nil ?_ (Or.inl rfl)
    · intro t _
      exact Nat.zero_le t
    · intro e he
      exact absurd he (List.not_mem_nil e)
  · intro s now h
    rw [handleTyping, if_pos h]

/-- Witness for C8 on a concrete burst: four calls inside one window plus
one after it yield emissions more than a window apart. -/
theorem typing_rate_limited_and_first_call_immediate_witness :
    List.Chain' (fun a b => a + 1000 < b)
      (runTyping typingInit [5000, 5100, 5200, 5900, 7000]).emitted :=
  (typing_rate_limited_and_first_call_immediate [5000, 5100, 5200, 5900, 7000]
      (by decide)).1

/-- Modelled from the spec: the expiry timeout for incoming typing
announcements ("a few seconds", spec section 4.4). -/
def TYPING_EXPIRY_MS : Nat := 3000

/-- Modelled from the spec: the incoming side of the TypingCoordinator
(spec section 4.4).  The client code under src/ merely installs the full
typing list the relay pushes (ChatBox.tsx lines 302-306); the component
that tracks per-user deadlines and expires stale entries lives in the
backend relay, which is not part of src/, so it is modelled here from the
spec's words: each announced user carries a removal deadline, a fresh
announcement for the same user resets it, and expiry removes every user
whose deadline has passed.  `typingUsers` is the set the spec exposes. -/
structure TypingCoordinator where
  deadlines : List (String × Nat)
deriving Repr, DecidableEq

/-- Modelled from the spec: receiving a typing announcement for `user` at
time `now` (re)schedules that user's automatic removal at
`now + TYPING_EXPIRY_MS`, replacing any pending deadline. -/
def announceTyping (c : TypingCoordinator) (user : String) (now : Nat) :
    TypingCoordinator :=
  ⟨(user, now + TYPING_EXPIRY_MS) :: c.deadlines.filter (fun p => p.1 ≠ user)⟩

/-- Modelled from the spec: the timer firing at time `now` removes every
user whose deadline has passed, with no stopped-typing event needed. -/
def expireTyping (c : TypingCoordinator) (now : Nat) : TypingCoordinator :=
  ⟨c.deadlines.filter (fun p => now < p.2)⟩

/-- Users currently shown as typing. -/
def typingUsers (c : TypingCoordinator) : List String :=
  c.deadlines.map Prod.fst

/-- C9: an announced user is in `typingUsers`; a user announced at `t`
and not re-announced is removed by the expiry tick once the window has
elapsed (no stopped-typing event from the peer is involved); and a fresh
announcement at `t'` resets the timer, keeping the user present at any
tick before `t' + TYPING_EXPIRY_MS`, even past the original deadline. -/
theorem typing_user_expires_unless_reannounced (c : TypingCoordinator)
    (user : String) (t t' now : Nat) :
    user ∈ typingUsers (announceTyping c user t) ∧
      (t + TYPING_EXPIRY_MS ≤ now →
        user ∉ typingUsers (expireTyping (announceTyping c user t) now)) ∧
      (now < t' + TYPING_EXPIRY_MS →
        user ∈ typingUsers
          (expireTyping (announceTyping (announceTyping c user t) user t') now)) := by
  refine ⟨?_, ?_, ?_⟩
  · exact List.mem_map.mpr ⟨(user, t + TYPING_EXPIRY_MS), List.mem_cons_self _ _, rfl⟩
  · intro hle hmem
    rcases List.mem_map.mp hmem with ⟨p, hp, hfst⟩
    rw [expireTyping, announceTyping] at hp
    rcases List.mem_filter.mp hp with ⟨hp1, hp2⟩
    rcases List.mem_cons.mp hp1 with h | h
    · subst h
      have : now < t + TYPING_EXPIRY_MS := by simpa using hp2
      omega
    · rcases List.mem_filter.mp h with ⟨-, hne⟩
      exact absurd hfst (by simpa using hne)
  · intro hlt
    refine List.mem_map.mpr ⟨(user, t' + TYPING_EXPIRY_MS), ?_, rfl⟩
    rw [expireTyping, announceTyping]
    refine List.mem_filter.mpr ⟨List.mem_cons_self _ _, by simpa using hlt⟩

/-- Witness for C9: "alice", announced at 0 and never re-announced, is
gone at the 3000ms tick; announced again at 2500, she survives the
4000ms tick. -/
theorem typing_user_expires_unless_reannounced_witness :
    "alice" ∉ typingUsers (expireTyping (announceTyping ⟨[]⟩ "alice" 0) 3000) ∧
      "alice" ∈ typingUsers
        (expireTyping (announceTyping (announceTyping ⟨[]⟩ "alice" 0) "alice" 2500)
          4000) :=
  ⟨(typing_user_expires_unless_reannounced ⟨[]⟩ "alice" 0 2500 3000).2.1 (by decide),
   (typing_user_expires_unless_reannounced ⟨[]⟩ "alice" 0 2500 4000).2.2 (by decide)⟩

end SuperChat
